import Mathlib

/-!
Verification of the transcript chunking and retrieval-fusion pipeline of a
podcast question-answering system.  The Lean definitions below are shallow
embeddings of the Python source files `md_parser.py`, `search_index.py` and
`rag_pipeline.py`:

* Python `int` values are modelled as `Int` (window sizes and step sizes,
  which are used as non-negative loop increments, as `Nat`);
* Python dictionaries read with `.get(key, default)` become structures whose
  fields carry the defaulted values;
* the external full-text index consumed by the retrieval code is an opaque
  function parameter, and the index queries the code issues are returned
  alongside the result so that statements about "querying the index" can be
  made;
* printing is modelled by returning the printed value (the failure list of
  `load_all_episodes`).
-/

/-- Models Python `str.strip()`: remove leading and trailing whitespace. -/
def pyStrip (s : String) : String :=
  ⟨((s.data.dropWhile Char.isWhitespace).reverse.dropWhile Char.isWhitespace).reverse⟩

/-- Models Python `sep.join(parts)`. -/
def joinWith (sep : String) : List String → String
  | [] => ""
  | [p] => p
  | p :: rest => p ++ sep ++ joinWith sep rest

/-- Models the Python format `f"\x7bsecs:02d\x7d"` for the non-negative
second remainders produced by `divmod(_, 60)`. -/
def pad2 (n : Int) : String :=
  if n < 10 then "0" ++ toString n else toString n

/-- Embeds `seconds_to_timestamp` (md_parser.py, lines 112-115):
`divmod(int(seconds), 60)` is Python floor division with a non-negative
remainder, i.e. `Int.ediv`/`Int.emod` for the positive divisor 60. -/
def seconds_to_timestamp (seconds : Int) : String :=
  let minutes := seconds.ediv 60
  let secs := seconds.emod 60
  toString minutes ++ ":" ++ pad2 secs

/-- One spoken transcript line: the `who`, `line` and `sec` keys of a
transcript dict, with the defaults the source supplies via `.get` ("" and 0). -/
structure Entry where
  who : String
  line : String
  sec : Int
deriving DecidableEq

/-- One transcript item: either a section marker (a dict with a `"header"`
key) or a spoken line (a dict with a `"line"` key). -/
inductive Item where
  | header (name : String)
  | line (e : Entry)
deriving DecidableEq

/-- Episode-level metadata as read by the chunkers: `title`, `short`,
`ids.youtube`, and the `str()`-converted `season` and `episode` fields. -/
structure EpisodeMeta where
  title : String
  short : String
  youtube : String
  season : String
  episode : String
deriving DecidableEq

/-- The dict stored for each clip name by `build_clip_lookup`. -/
structure ClipInfo where
  start_seconds : Int
  end_seconds : Int
  deep_link : String
  timestamp : String
deriving DecidableEq

/-- A quotableClips entry; `startOffset`, `endOffset` and `url` may be
missing, which `build_clip_lookup` defaults to 0 / 0 / "". -/
structure Clip where
  name : String
  startOffset : Option Int
  endOffset : Option Int
  url : Option String
deriving DecidableEq

/-- Embeds `build_clip_lookup` (md_parser.py, lines 85-109) as a finite map
built by successive dict insertion (a clip later in the list overwrites an
earlier clip of the same name). -/
def build_clip_lookup (quotable_clips : List Clip) : String → Option ClipInfo :=
  quotable_clips.foldl
    (fun lookup clip => fun n =>
      if n = clip.name then
        some { start_seconds := clip.startOffset.getD 0
               end_seconds := clip.endOffset.getD 0
               deep_link := clip.url.getD ""
               timestamp := seconds_to_timestamp (clip.startOffset.getD 0) }
      else lookup n)
    (fun _ => none)

/-- An excerpt produced by either chunker (the dicts appended to `chunks`
by `chunk_by_headers` and `chunk_by_time_window`).  The source's `section`
key is called `section_name` because `section` is reserved in Lean. -/
structure Chunk where
  chunk_type : String
  section_name : String
  text : String
  speakers : String
  episode_title : String
  short_title : String
  video_id : String
  season : String
  episode_num : String
  start_seconds : Int
  timestamp : String
  deep_link : String
deriving DecidableEq

/-- The per-line text part built by both chunkers:
`f"\x7bspeaker\x7d: \x7bline\x7d"` when the speaker string is truthy, else the bare
stripped line. -/
def linePart (e : Entry) : String :=
  if e.who ≠ "" then e.who ++ ": " ++ pyStrip e.line else pyStrip e.line

/-- Insert a string into an ascending list (helper for modelling Python
`sorted`). -/
def insertSorted (x : String) : List String → List String
  | [] => [x]
  | y :: ys => if x ≤ y then x :: y :: ys else y :: insertSorted x ys

/-- Models Python `sorted(...)` on strings by insertion sort. -/
def sortStrings (l : List String) : List String :=
  l.foldr insertSorted []

/-- First-occurrence deduplication (the distinct elements of the Python
`set`, whose unspecified iteration order is normalised away by `sorted`). -/
def distinctKeepFirst (l : List String) : List String :=
  l.foldl (fun acc s => if acc.contains s then acc else acc ++ [s]) []

/-- The `", ".join(sorted(speakers_seen))` computation of both chunkers:
the distinct truthy speaker names, sorted, comma-joined. -/
def speakersString (entries : List Entry) : String :=
  joinWith ", "
    (sortStrings (distinctKeepFirst
      (entries.filterMap fun e => if e.who ≠ "" then some e.who else none)))

/-- Embeds the inner `flush_chunk` of `chunk_by_headers` (md_parser.py,
lines 163-213).  Returns `none` when the accumulator is empty (the Python
early `return`), otherwise the chunk that the source appends. -/
def flush_chunk (clip_lookup : String → Option ClipInfo) (episode_meta : EpisodeMeta)
    (current_header : String) (current_lines : List Entry) (current_start : Int) :
    Option Chunk :=
  if current_lines.isEmpty then none
  else
    let combined_text := joinWith " " (current_lines.map linePart)
    let speakers := speakersString current_lines
    match clip_lookup current_header with
    | some clip_info =>
        some { chunk_type := "header"
               section_name := current_header
               text := combined_text
               speakers := speakers
               episode_title := episode_meta.title
               short_title := episode_meta.short
               video_id := episode_meta.youtube
               season := episode_meta.season
               episode_num := episode_meta.episode
               start_seconds := clip_info.start_seconds
               timestamp := clip_info.timestamp
               deep_link := clip_info.deep_link }
    | none =>
        some { chunk_type := "header"
               section_name := current_header
               text := combined_text
               speakers := speakers
               episode_title := episode_meta.title
               short_title := episode_meta.short
               video_id := episode_meta.youtube
               season := episode_meta.season
               episode_num := episode_meta.episode
               start_seconds := current_start
               timestamp := seconds_to_timestamp current_start
               deep_link := "https://www.youtube.com/watch?v=" ++ episode_meta.youtube
                            ++ "&t=" ++ toString current_start }

/-- The mutable loop state of `chunk_by_headers`. -/
structure HeaderState where
  current_header : String
  current_lines : List Entry
  current_start : Int
  chunks : List Chunk

/-- One iteration of the `for item in transcript` loop of `chunk_by_headers`
(md_parser.py, lines 216-227). -/
def headerStep (clip_lookup : String → Option ClipInfo) (episode_meta : EpisodeMeta)
    (st : HeaderState) (item : Item) : HeaderState :=
  match item with
  | .header name =>
      let chunks :=
        match flush_chunk clip_lookup episode_meta
                st.current_header st.current_lines st.current_start with
        | some c => st.chunks ++ [c]
        | none => st.chunks
      { current_header := name
        current_lines := []
        current_start := ((clip_lookup name).map (·.start_seconds)).getD 0
        chunks := chunks }
  | .line e => { st with current_lines := st.current_lines ++ [e] }

/-- Embeds `chunk_by_headers` (md_parser.py, lines 122-232): fold the loop
body over the transcript starting from the "Introduction" state, then flush
the final accumulator. -/
def chunk_by_headers (transcript : List Item) (clip_lookup : String → Option ClipInfo)
    (episode_meta : EpisodeMeta) : List Chunk :=
  let st := transcript.foldl (headerStep clip_lookup episode_meta)
    { current_header := "Introduction", current_lines := [], current_start := 0,
      chunks := [] }
  match flush_chunk clip_lookup episode_meta
          st.current_header st.current_lines st.current_start with
  | some c => st.chunks ++ [c]
  | none => st.chunks

/-- The chunk emitted for one non-empty window of `chunk_by_time_window`
(md_parser.py, lines 292-320). -/
def mkWindowChunk (episode_meta : EpisodeMeta) (window_start : Nat)
    (window_lines : List Entry) : Chunk :=
  { chunk_type := "window"
    section_name := "~" ++ seconds_to_timestamp (window_start : Int)
    text := joinWith " " (window_lines.map linePart)
    speakers := speakersString window_lines
    episode_title := episode_meta.title
    short_title := episode_meta.short
    video_id := episode_meta.youtube
    season := episode_meta.season
    episode_num := episode_meta.episode
    start_seconds := (window_start : Int)
    timestamp := seconds_to_timestamp (window_start : Int)
    deep_link := "https://www.youtube.com/watch?v=" ++ episode_meta.youtube
                 ++ "&t=" ++ toString window_start }

/-- The `while window_start <= total_secs` loop of `chunk_by_time_window`,
as structural recursion on the number of remaining iterations: each step
emits the window's chunk when at least one line falls in
`[window_start, window_start + window_seconds)` and advances the start by
`step_seconds`.  `chunk_by_time_window` supplies exactly enough fuel for
every iteration whose guard passes (the source loop does not terminate when
`step_seconds <= 0`; claims about it assume a positive step). -/
def window_iter (lines : List Entry) (episode_meta : EpisodeMeta)
    (window_seconds step_seconds : Nat) (total_secs : Int) :
    Nat → Nat → List Chunk
  | _, 0 => []
  | window_start, fuel + 1 =>
      if (window_start : Int) ≤ total_secs then
        let window_lines := lines.filter fun l =>
          decide ((window_start : Int) ≤ l.sec) &&
          decide (l.sec < (window_start : Int) + (window_seconds : Int))
        (if window_lines.isEmpty then [] else [mkWindowChunk episode_meta window_start window_lines])
          ++ window_iter lines episode_meta window_seconds step_seconds total_secs
               (window_start + step_seconds) fuel
      else []

/-- Embeds `chunk_by_time_window` (md_parser.py, lines 239-324): keep only
spoken lines, return `[]` when there are none, otherwise slide the window
from 0 while `window_start <= total_secs` where `total_secs` is the last
line's timestamp. -/
def chunk_by_time_window (transcript : List Item) (episode_meta : EpisodeMeta)
    (window_seconds : Nat := 60) (step_seconds : Nat := 30) : List Chunk :=
  let lines := transcript.filterMap fun item =>
    match item with
    | .line e => some e
    | .header _ => none
  match lines.getLast? with
  | none => []
  | some last =>
      window_iter lines episode_meta window_seconds step_seconds last.sec 0
        (last.sec.toNat / step_seconds + 1)

/-- A retrieval result as consumed by `deduplicate_results`: the `video_id`
and `start_seconds` keys (with the source's `.get` defaults collapsed into
plain fields) plus an opaque payload standing for the remaining keys. -/
structure SearchResult where
  video_id : String
  start_seconds : Int
  payload : String
deriving DecidableEq

/-- The `for r in results` loop of `deduplicate_results` (search_index.py,
lines 129-146): `seen` is the list of `(video_id, start_seconds)` pairs
already kept, and a candidate is a duplicate when some kept pair has the
same video id and a start within `min_gap_seconds`. -/
def dedup_go (min_gap_seconds : Int) (seen : List (String × Int)) :
    List SearchResult → List SearchResult
  | [] => []
  | r :: rs =>
      if seen.any fun kept =>
           kept.1 == r.video_id &&
           decide ((((kept.2 - r.start_seconds).natAbs : Int)) < min_gap_seconds) then
        dedup_go min_gap_seconds seen rs
      else
        r :: dedup_go min_gap_seconds (seen ++ [(r.video_id, r.start_seconds)]) rs

/-- Embeds `deduplicate_results` (search_index.py, lines 112-146). -/
def deduplicate_results (results : List SearchResult) (min_gap_seconds : Int := 30) :
    List SearchResult :=
  dedup_go min_gap_seconds [] results

/-- One call to `search` (search_index.py, lines 61-109) as issued by
`PodcastRAG.retrieve`: the query text, the optional scope filters, the kind
restriction and the requested number of results. -/
structure SearchCall where
  question : String
  video_id : Option String
  season : Option String
  chunk_type : String
  top_k : Int
deriving DecidableEq

/-- Models the Python slice `l[:k]`, including the negative-index case
(`l[:-m]` keeps all but the last `m` elements, clamped at the empty list). -/
def pySlice (k : Int) (l : List α) : List α :=
  if 0 ≤ k then l.take k.toNat else l.take (l.length - (-k).toNat)

/-- Embeds `PodcastRAG.retrieve` (rag_pipeline.py, lines 65-110).  The
external index is the opaque function `index`; the second component of the
result records the two `search` calls the source issues unconditionally
(one for header chunks, one for window chunks).  The body interleaves the
two ranked lists pairwise (`zip`), appends each list's tail beyond the
other's length (the Python slices `header_results[len(window_results):]`
and `window_results[len(header_results):]`), deduplicates with a 30-second
gap, and truncates with the Python slice `unique[:self.top_k]`. -/
def retrieve (index : SearchCall → List SearchResult) (question : String)
    (video_id : Option String) (season : Option String) (top_k : Int) :
    List SearchResult × List SearchCall :=
  let header_call : SearchCall :=
    { question := question, video_id := video_id, season := season,
      chunk_type := "header", top_k := top_k }
  let window_call : SearchCall :=
    { question := question, video_id := video_id, season := season,
      chunk_type := "window", top_k := top_k }
  let header_results := index header_call
  let window_results := index window_call
  let merged :=
    ((header_results.zip window_results).flatMap fun p => [p.1, p.2])
      ++ header_results.drop window_results.length
      ++ window_results.drop header_results.length
  let unique := deduplicate_results merged 30
  (pySlice top_k unique, [header_call, window_call])

/-- The parsed YAML frontmatter of one episode file, as consumed by
`parse_md_file`: the transcript items, the quotable clips, and the episode
metadata (the full `data` dict doubles as `episode_meta` in the source). -/
structure DocData where
  transcript : List Item
  quotableClips : List Clip
  meta : EpisodeMeta

/-- One episode file as seen by `parse_md_file`: either the frontmatter
fails to parse (`split_frontmatter` or the YAML loader raises) or it yields
a `DocData`. -/
inductive DocSource where
  | malformed (msg : String)
  | parsed (d : DocData)

/-- Embeds `parse_md_file` (md_parser.py, lines 331-370): a raising parse
becomes `Except.error`; an empty (or missing) transcript returns `[]`
after only a printed warning; otherwise the header chunks are concatenated
with the window chunks (window/step 60/30). -/
def parse_md_file (src : DocSource) : Except String (List Chunk) :=
  match src with
  | .malformed msg => .error msg
  | .parsed d =>
      if d.transcript.isEmpty then .ok []
      else
        let clip_lookup := build_clip_lookup d.quotableClips
        .ok (chunk_by_headers d.transcript clip_lookup d.meta
             ++ chunk_by_time_window d.transcript d.meta 60 30)

/-- Embeds the `for md_file in md_files` loop of `load_all_episodes`
(md_parser.py, lines 377-426) over a list of (file name, parse outcome)
pairs.  The source returns only `all_segments` and prints `failed`; the
second component of the pair models that printed failure list.  The
directory-existence and no-files checks that precede the loop raise before
any document is parsed and are outside this embedding. -/
def load_all_episodes (md_files : List (String × DocSource)) :
    List Chunk × List String :=
  md_files.foldl
    (fun acc file =>
      match parse_md_file file.2 with
      | .ok segments => (acc.1 ++ segments, acc.2)
      | .error _ => (acc.1, acc.2 ++ [file.1]))
    ([], [])

/-- Concrete episode metadata used by the instantiated theorems. -/
def meta0 : EpisodeMeta :=
  { title := "Ep", short := "E", youtube := "vid123", season := "8", episode := "4" }

/-- Concrete transcript with speaker-less lines at seconds 10, 40, 70, 100
(the worked example of the specification). -/
def tr1 : List Item :=
  [ Item.line { who := "", line := "L10", sec := 10 }
  , Item.line { who := "", line := "L40", sec := 40 }
  , Item.line { who := "", line := "L70", sec := 70 }
  , Item.line { who := "", line := "L100", sec := 100 } ]


/-- The output of the deduplication loop is a sublist of its input,
whatever the list of already-seen timestamps. -/
theorem dedup_go_sublist (gap : Int) (seen : List (String × Int))
    (l : List SearchResult) : List.Sublist (dedup_go gap seen l) l := by
  induction l generalizing seen with
  | nil => simp [dedup_go]
  | cons r rs ih =>
    rw [dedup_go]
    split
    · exact List.Sublist.cons r (ih seen)
    · exact List.Sublist.cons₂ r (ih _)

/-- Running the deduplication loop on its own output (from the same seen
list) changes nothing: each survivor was accepted against exactly the
earlier survivors, and those are reproduced verbatim on the second run. -/
theorem dedup_go_idem (gap : Int) (seen : List (String × Int))
    (l : List SearchResult) :
    dedup_go gap seen (dedup_go gap seen l) = dedup_go gap seen l := by
  induction l generalizing seen with
  | nil => rfl
  | cons r rs ih =>
    rw [dedup_go]
    split
    · exact ih seen
    · next h =>
        rw [dedup_go, if_neg h]
        exact congrArg (r :: ·) (ih _)

/-- C5: Deduplication is idempotent: for every list of retrieval results
and every minGapSeconds, applying `deduplicate_results` to its own output
yields that output unchanged. -/
theorem deduplicate_results_idempotent (results : List SearchResult)
    (min_gap_seconds : Int) :
    deduplicate_results (deduplicate_results results min_gap_seconds) min_gap_seconds
      = deduplicate_results results min_gap_seconds :=
  dedup_go_idem min_gap_seconds [] results

/-- C6: For every list of ranked retrieval results and every minGapSeconds,
the output of `deduplicate_results` is a subsequence of the input: kept
elements appear in the input's relative order, and a rejected candidate is
dropped rather than replacing an already-accepted element. -/
theorem deduplicate_results_sublist (results : List SearchResult)
    (min_gap_seconds : Int) :
    List.Sublist (deduplicate_results results min_gap_seconds) results :=
  dedup_go_sublist min_gap_seconds [] results

/-- C9: `deduplicate_results` always keeps the first element of a non-empty
input, its output is empty exactly when its input is, and on a singleton
input the output equals the input. -/
theorem deduplicate_results_keeps_first :
    (∀ (min_gap_seconds : Int) (r : SearchResult) (rs : List SearchResult),
       (deduplicate_results (r :: rs) min_gap_seconds).head? = some r)
    ∧ (∀ (min_gap_seconds : Int) (results : List SearchResult),
       (deduplicate_results results min_gap_seconds = [] ↔ results = []))
    ∧ (∀ (min_gap_seconds : Int) (r : SearchResult),
       deduplicate_results [r] min_gap_seconds = [r]) := by
  refine ⟨fun gap r rs => ?_, fun gap results => ?_, fun gap r => rfl⟩
  · simp [deduplicate_results, dedup_go]
  · cases results with
    | nil => simp [deduplicate_results, dedup_go]
    | cons r rs =>
      simp only [deduplicate_results, dedup_go, List.any_nil, Bool.false_eq_true,
        if_false]
      constructor
      · intro h; exact absurd h (List.cons_ne_nil _ _)
      · intro h; exact absurd h (List.cons_ne_nil _ _)

/-- C1 (counterexample): with `windowSeconds=60, stepSeconds=30` and lines
at seconds 10, 40, 70, 100, the emitted windows start at 0, 30, 60, 90 as
claimed, but the window at 30 contains the lines at 40 AND 70 (its text is
"L40 L70", not "L40") and the window at 60 contains the lines at 70 AND
100 — a 60-second window starting at 30 spans [30, 90). -/
theorem chunk_by_time_window_membership_counterexample :
    ((chunk_by_time_window tr1 meta0 60 30).map fun c => (c.start_seconds, c.text))
      = [(0, "L10 L40"), (30, "L40 L70"), (60, "L70 L100"), (90, "L100")]
    ∧ ("L40 L70" ≠ "L40") ∧ ("L70 L100" ≠ "L70") := by
  refine ⟨by decide, by decide, by decide⟩

/-- C1 (amended): with `windowSeconds=60, stepSeconds=30` and lines at
seconds 10, 40, 70, 100, the Window Chunker emits excerpts exactly at
window starts 0, 30, 60, 90; window 0 contains the lines at 10 and 40,
window 30 the lines at 40 and 70, window 60 the lines at 70 and 100, and
window 90 only the line at 100. -/
theorem chunk_by_time_window_example_windows :
    ((chunk_by_time_window tr1 meta0 60 30).map
        fun c => (c.start_seconds, c.section_name, c.text))
      = [ ((0 : Int), "~0:00", "L10 L40")
        , ((30 : Int), "~0:30", "L40 L70")
        , ((60 : Int), "~1:00", "L70 L100")
        , ((90 : Int), "~1:30", "L100") ] := by
  decide

/-- A concrete external index used to exercise `retrieve`: two far-apart
header results and no window results. -/
def index0 : SearchCall → List SearchResult := fun c =>
  if c.chunk_type = "header" then
    [ { video_id := "V", start_seconds := 0, payload := "r1" }
    , { video_id := "V", start_seconds := 1000, payload := "r2" } ]
  else []

/-- C3 (counterexample): `retrieve` issues its two index queries for every
`topK`, including `topK <= 0` (the query list is never empty), and for
`topK = -1` the Python slice `unique[:-1]` returns a non-empty list. -/
theorem retrieve_topk_counterexample :
    (retrieve index0 "q" none none (-1)).2 ≠ []
    ∧ (retrieve index0 "q" none none 0).2 ≠ []
    ∧ (retrieve index0 "q" none none (-1)).1
        = [{ video_id := "V", start_seconds := 0, payload := "r1" }]
    ∧ (retrieve index0 "q" none none (-1)).1 ≠ [] := by
  refine ⟨by decide, by decide, by decide, by decide⟩

/-- C3 (amended): `retrieve` has no `topK <= 0` guard — it always issues
exactly the two index queries (header kind then window kind) regardless of
`topK`; the result list is empty for `topK = 0` only because of the final
truncation, and need not be empty for negative `topK`. -/
theorem retrieve_always_queries :
    (∀ (index : SearchCall → List SearchResult) (question : String)
       (video_id season : Option String) (top_k : Int),
       (retrieve index question video_id season top_k).2
         = [ { question := question, video_id := video_id, season := season,
               chunk_type := "header", top_k := top_k }
           , { question := question, video_id := video_id, season := season,
               chunk_type := "window", top_k := top_k } ])
    ∧ (∀ (index : SearchCall → List SearchResult) (question : String)
        (video_id season : Option String),
        (retrieve index question video_id season 0).1 = []) := by
  refine ⟨fun index question video_id season top_k => rfl,
          fun index question video_id season => ?_⟩
  simp [retrieve, pySlice]

/-- C7 (counterexample): negative inputs are not treated as 0:
`seconds_to_timestamp (-5)` is "-1:55" (Python floor divmod), not "0:00". -/
theorem seconds_to_timestamp_negative_counterexample :
    seconds_to_timestamp (-5) ≠ "0:00" ∧ seconds_to_timestamp (-5) = "-1:55" := by
  refine ⟨by decide, by decide⟩

/-- C7 (amended): `seconds_to_timestamp` formats integer seconds as
minutes:seconds with the seconds zero-padded to two digits (150 → "2:30",
0 → "0:00"); a missing clip start offset is treated as 0 by
`build_clip_lookup`'s default, while a negative input is formatted by
floor division (-5 → "-1:55"), not treated as 0. -/
theorem seconds_to_timestamp_formats :
    seconds_to_timestamp 150 = "2:30"
    ∧ seconds_to_timestamp 0 = "0:00"
    ∧ seconds_to_timestamp (-5) = "-1:55"
    ∧ (∀ (name : String) (endOffset : Option Int) (url : Option String),
        ((build_clip_lookup
            [{ name := name, startOffset := none, endOffset := endOffset,
               url := url }]) name).map (·.timestamp) = some "0:00") := by
  refine ⟨by decide, by decide, by decide,
          fun name endOffset url => ?_⟩
  show (Option.map _ (if name = name then _ else none)) = _
  rw [if_pos rfl]
  rfl

/-- Accumulator-generalised shape of the `load_all_episodes` loop: the
segments of successfully parsed files are appended in file order, and the
names of files whose parse raised are appended to the failure list. -/
theorem load_all_episodes_fold (md_files : List (String × DocSource))
    (acc : List Chunk × List String) :
    md_files.foldl
      (fun acc file =>
        match parse_md_file file.2 with
        | .ok segments => (acc.1 ++ segments, acc.2)
        | .error _ => (acc.1, acc.2 ++ [file.1]))
      acc
    = (acc.1 ++ md_files.flatMap (fun file => (parse_md_file file.2).toOption.getD []),
       acc.2 ++ (md_files.filter
         (fun file => (parse_md_file file.2).toOption.isNone)).map Prod.fst) := by
  induction md_files generalizing acc with
  | nil => simp
  | cons file rest ih =>
    simp only [List.foldl_cons, List.flatMap_cons, List.filter_cons]
    cases h : parse_md_file file.2 with
    | ok segments => simp [ih, h, Except.toOption, List.append_assoc]
    | error e => simp [ih, h, Except.toOption]

/-- C4 (counterexample): a document that parses but has no transcript
content is skipped (it contributes no excerpts) yet its identifier is NOT
recorded in the failure list — the failure list stays empty, where the
claim requires it to contain "ep1".  (The failure list itself is printed
by the source, not returned alongside the excerpts.) -/
theorem load_all_episodes_no_transcript_counterexample :
    load_all_episodes
        [("ep1", DocSource.parsed
            { transcript := [], quotableClips := [], meta := meta0 })]
      = ([], [])
    ∧ ([] : List String) ≠ ["ep1"] := by
  refine ⟨by decide, by decide⟩

/-- C4 (amended): for every document collection, each document whose parse
raises is skipped with its identifier recorded in the failure list (which
the source prints rather than returning), and loading continues: the
returned excerpts are exactly the concatenation, in file order, of the
excerpts of the documents that parsed; a document with no transcript
content parses to zero excerpts and is skipped without being recorded as
failed. -/
theorem load_all_episodes_isolates_failures (md_files : List (String × DocSource)) :
    (load_all_episodes md_files).1
      = md_files.flatMap (fun file => (parse_md_file file.2).toOption.getD [])
    ∧ (load_all_episodes md_files).2
      = (md_files.filter
          (fun file => (parse_md_file file.2).toOption.isNone)).map Prod.fst
    ∧ (∀ (d : DocData), d.transcript = [] →
        parse_md_file (DocSource.parsed d) = .ok []) := by
  refine ⟨?_, ?_, fun d hd => ?_⟩
  · rw [load_all_episodes, load_all_episodes_fold]; simp
  · rw [load_all_episodes, load_all_episodes_fold]; simp
  · simp [parse_md_file, hd]

/-- Every chunk emitted by the window loop starting at `start` has a start
that is `start` plus a whole number of steps. -/
theorem window_iter_start_shape (lines : List Entry) (episode_meta : EpisodeMeta)
    (w s : Nat) (total : Int) :
    ∀ (fuel start : Nat) (c : Chunk),
      c ∈ window_iter lines episode_meta w s total start fuel →
      ∃ k : Nat, c.start_seconds = ((start + k * s : Nat) : Int) := by
  intro fuel
  induction fuel with
  | zero => intro start c hc; simp [window_iter] at hc
  | succ fuel ih =>
    intro start c hc
    rw [window_iter] at hc
    by_cases hle : (start : Int) ≤ total
    · rw [if_pos hle] at hc
      rcases List.mem_append.1 hc with hmem | hmem
      · rcases List.mem_ite_nil_left.1 hmem with ⟨_, hmem⟩
        rcases List.mem_singleton.1 hmem with rfl
        exact ⟨0, by simp [mkWindowChunk]⟩
      · rcases ih (start + s) c hmem with ⟨k, hk⟩
        exact ⟨k + 1, by rw [hk]; congr 1; ring⟩
    · rw [if_neg hle] at hc
      simp at hc

/-- The starts of the chunks emitted by the window loop are strictly
increasing for a positive step. -/
theorem window_iter_pairwise (lines : List Entry) (episode_meta : EpisodeMeta)
    (w s : Nat) (total : Int) (hs : 0 < s) :
    ∀ (fuel start : Nat),
      ((window_iter lines episode_meta w s total start fuel).map
        (·.start_seconds)).Pairwise (· < ·) := by
  intro fuel
  induction fuel with
  | zero => intro start; simp [window_iter]
  | succ fuel ih =>
    intro start
    rw [window_iter]
    by_cases hle : (start : Int) ≤ total
    · rw [if_pos hle]
      by_cases hemp :
          (lines.filter fun l =>
            decide ((start : Int) ≤ l.sec) &&
            decide (l.sec < (start : Int) + (w : Int))).isEmpty
      · simpa [hemp] using ih (start + s)
      · rw [Bool.not_eq_true] at hemp
        simp only [hemp, Bool.false_eq_true, if_false]
        simp only [List.singleton_append, List.map_cons, List.pairwise_cons]
        refine ⟨?_, ih (start + s)⟩
        intro b hb
        rcases List.mem_map.1 hb with ⟨c, hc, rfl⟩
        rcases window_iter_start_shape lines episode_meta w s total fuel
          (start + s) c hc with ⟨k, hk⟩
        rw [hk]
        show (start : Int) < ((start + s + k * s : Nat) : Int)
        exact_mod_cast (by omega : start < start + s + k * s)
    · simp [if_neg hle]

/-- C10: for every document and positive window and step sizes, every
excerpt the Window Chunker emits has a start that is a non-negative
multiple of the step, and the starts are strictly increasing across the
emitted list (so all window labels within one document are distinct). -/
theorem chunk_by_time_window_starts (transcript : List Item)
    (episode_meta : EpisodeMeta) (window_seconds step_seconds : Nat)
    (_hw : 0 < window_seconds) (hs : 0 < step_seconds) :
    (∀ c ∈ chunk_by_time_window transcript episode_meta window_seconds step_seconds,
       ∃ k : Nat, c.start_seconds = ((k * step_seconds : Nat) : Int))
    ∧ ((chunk_by_time_window transcript episode_meta window_seconds
          step_seconds).map (·.start_seconds)).Pairwise (· < ·) := by
  rw [chunk_by_time_window]
  cases hlast :
      (transcript.filterMap fun item =>
        match item with
        | .line e => some e
        | .header _ => none).getLast? with
  | none => simp
  | some last =>
    refine ⟨fun c hc => ?_, ?_⟩
    · rcases window_iter_start_shape _ episode_meta window_seconds step_seconds
        last.sec _ 0 c hc with ⟨k, hk⟩
      exact ⟨k, by simpa using hk⟩
    · exact window_iter_pairwise _ episode_meta window_seconds step_seconds
        last.sec hs _ 0

/-- C10 (witness): the multiple-of-step and strictly-increasing start
properties hold for the concrete four-line transcript with window 60 and
step 30. -/
theorem chunk_by_time_window_starts_witness :
    (0 < 60 ∧ 0 < 30)
    ∧ ((∀ c ∈ chunk_by_time_window tr1 meta0 60 30,
          ∃ k : Nat, c.start_seconds = ((k * 30 : Nat) : Int))
       ∧ ((chunk_by_time_window tr1 meta0 60 30).map
            (·.start_seconds)).Pairwise (· < ·)) :=
  ⟨⟨by decide, by decide⟩,
   chunk_by_time_window_starts tr1 meta0 60 30 (by decide) (by decide)⟩

/-- A transcript item whose spoken line is renderable: either a truthy
speaker or text that is non-empty after stripping (section markers
qualify trivially). -/
def line_has_content : Item → Bool
  | .header _ => true
  | .line e => decide (e.who ≠ "") || decide (pyStrip e.line ≠ "")

/-- The per-line text part is non-empty whenever the line has a truthy
speaker or non-whitespace text. -/
theorem linePart_ne_empty (e : Entry) (h : e.who ≠ "" ∨ pyStrip e.line ≠ "") :
    linePart e ≠ "" := by
  rw [linePart]
  by_cases hw : e.who = ""
  · rw [if_neg (by simpa using hw)]
    rcases h with h | h
    · exact absurd hw h
    · exact h
  · rw [if_pos hw]
    intro hc
    have hlen := congrArg String.length hc
    rw [String.length_append, String.length_append] at hlen
    simp only [show (": " : String).length = 2 from rfl,
      show ("" : String).length = 0 from rfl] at hlen
    omega

/-- Joining parts with single spaces gives a non-empty string when the
first part is non-empty. -/
theorem joinWith_space_ne_empty (p : String) (rest : List String) (hp : p ≠ "") :
    joinWith " " (p :: rest) ≠ "" := by
  cases rest with
  | nil => simpa [joinWith] using hp
  | cons q r =>
    show p ++ " " ++ joinWith " " (q :: r) ≠ ""
    intro hc
    have hlen := congrArg String.length hc
    rw [String.length_append, String.length_append] at hlen
    simp only [show (" " : String).length = 1 from rfl,
      show ("" : String).length = 0 from rfl] at hlen
    omega

/-- A flushed chunk comes from a non-empty accumulator, is labeled with the
section that was current, and carries the space-joined line texts. -/
theorem flush_chunk_eq (clip_lookup : String → Option ClipInfo)
    (episode_meta : EpisodeMeta) (current_header : String)
    (current_lines : List Entry) (current_start : Int) (c : Chunk)
    (hf : flush_chunk clip_lookup episode_meta current_header current_lines
            current_start = some c) :
    current_lines ≠ [] ∧ c.section_name = current_header
    ∧ c.text = joinWith " " (current_lines.map linePart) := by
  rw [flush_chunk] at hf
  by_cases hemp : current_lines.isEmpty
  · rw [if_pos hemp] at hf
    exact absurd hf (by simp)
  · rw [if_neg hemp] at hf
    rw [Bool.not_eq_true, List.isEmpty_eq_false] at hemp
    cases hcl : clip_lookup current_header with
    | some info => rw [hcl] at hf; cases hf; exact ⟨hemp, rfl, rfl⟩
    | none => rw [hcl] at hf; cases hf; exact ⟨hemp, rfl, rfl⟩

/-- When the current section has no clip entry, the flushed chunk takes its
timing and deep link from `current_start` (the fallback branch). -/
theorem flush_chunk_fallback (clip_lookup : String → Option ClipInfo)
    (episode_meta : EpisodeMeta) (current_header : String)
    (current_lines : List Entry) (current_start : Int) (c : Chunk)
    (hf : flush_chunk clip_lookup episode_meta current_header current_lines
            current_start = some c)
    (hnone : clip_lookup current_header = none) :
    c.start_seconds = current_start
    ∧ c.timestamp = seconds_to_timestamp current_start
    ∧ c.deep_link = "https://www.youtube.com/watch?v=" ++ episode_meta.youtube
                    ++ "&t=" ++ toString current_start := by
  rw [flush_chunk] at hf
  by_cases hemp : current_lines.isEmpty
  · rw [if_pos hemp] at hf
    exact absurd hf (by simp)
  · rw [if_neg hemp, hnone] at hf
    cases hf
    exact ⟨rfl, rfl, rfl⟩

/-- Invariant of the header-chunking loop: if every remaining item has
renderable content, every accumulated line has renderable content, and
every chunk produced so far has non-empty text, then the same holds of the
state after folding the remaining items. -/
theorem headers_fold_text (clip_lookup : String → Option ClipInfo)
    (episode_meta : EpisodeMeta) :
    ∀ (items : List Item) (st : HeaderState),
      (∀ it ∈ items, line_has_content it = true) →
      (∀ e ∈ st.current_lines, e.who ≠ "" ∨ pyStrip e.line ≠ "") →
      (∀ c ∈ st.chunks, c.text ≠ "") →
      (∀ e ∈ (items.foldl (headerStep clip_lookup episode_meta) st).current_lines,
         e.who ≠ "" ∨ pyStrip e.line ≠ "")
      ∧ (∀ c ∈ (items.foldl (headerStep clip_lookup episode_meta) st).chunks,
         c.text ≠ "") := by
  intro items
  induction items with
  | nil => intro st _ hlines hchunks; exact ⟨hlines, hchunks⟩
  | cons it rest ih =>
    intro st hitems hlines hchunks
    rw [List.foldl_cons]
    refine ih (headerStep clip_lookup episode_meta st it)
      (fun i hi => hitems i (List.mem_cons_of_mem it hi)) ?_ ?_
    · cases it with
      | header name => intro e he; exact absurd he (by simp [headerStep])
      | line e0 =>
        intro e he
        rw [headerStep] at he
        rcases List.mem_append.1 he with he | he
        · exact hlines e he
        · rcases List.mem_singleton.1 he with rfl
          have := hitems (Item.line e) (List.mem_cons_self _ _)
          simpa [line_has_content] using this
    · cases it with
      | line e0 => intro c hc; rw [headerStep] at hc; exact hchunks c hc
      | header name =>
        intro c hc
        rw [headerStep] at hc
        revert hc
        cases hf : flush_chunk clip_lookup episode_meta
            st.current_header st.current_lines st.current_start with
        | none => intro hc; exact hchunks c hc
        | some c' =>
          intro hc
          rcases List.mem_append.1 hc with hc | hc
          · exact hchunks c hc
          · rcases List.mem_singleton.1 hc with rfl
            obtain ⟨hne, _, htext⟩ := flush_chunk_eq clip_lookup episode_meta
              st.current_header st.current_lines st.current_start c hf
            rw [htext]
            cases hlns : st.current_lines with
            | nil => exact absurd hlns hne
            | cons e es =>
              rw [List.map_cons]
              refine joinWith_space_ne_empty _ _ (linePart_ne_empty e ?_)
              exact hlines e (by rw [hlns]; exact List.mem_cons_self _ _)

/-- C8 (amended): for every document all of whose spoken lines carry a
truthy speaker or non-whitespace text, the Header Chunker never emits an
excerpt whose text is empty.  (Unconditionally the claim fails: a
speaker-less line whose text strips to "" yields an excerpt with empty
text, see the counterexample.) -/
theorem chunk_by_headers_text_ne_empty (transcript : List Item)
    (clip_lookup : String → Option ClipInfo) (episode_meta : EpisodeMeta)
    (h : ∀ it ∈ transcript, line_has_content it = true) :
    ∀ c ∈ chunk_by_headers transcript clip_lookup episode_meta, c.text ≠ "" := by
  rw [chunk_by_headers]
  obtain ⟨hlines, hchunks⟩ := headers_fold_text clip_lookup episode_meta transcript
    { current_header := "Introduction", current_lines := [], current_start := 0,
      chunks := [] } h (by simp) (by simp)
  intro c
  revert hlines hchunks
  cases hf : flush_chunk clip_lookup episode_meta
      (transcript.foldl (headerStep clip_lookup episode_meta)
        { current_header := "Introduction", current_lines := [],
          current_start := 0, chunks := [] }).current_header
      (transcript.foldl (headerStep clip_lookup episode_meta)
        { current_header := "Introduction", current_lines := [],
          current_start := 0, chunks := [] }).current_lines
      (transcript.foldl (headerStep clip_lookup episode_meta)
        { current_header := "Introduction", current_lines := [],
          current_start := 0, chunks := [] }).current_start with
  | none => intro hlines hchunks hc; exact hchunks c hc
  | some c' =>
    intro hlines hchunks hc
    rcases List.mem_append.1 hc with hc | hc
    · exact hchunks c hc
    · rcases List.mem_singleton.1 hc with rfl
      obtain ⟨hne, _, htext⟩ := flush_chunk_eq _ _ _ _ _ _ hf
      rw [htext]
      cases hlns : (transcript.foldl (headerStep clip_lookup episode_meta)
          { current_header := "Introduction", current_lines := [],
            current_start := 0, chunks := [] }).current_lines with
      | nil => exact absurd hlns hne
      | cons e es =>
        rw [List.map_cons]
        refine joinWith_space_ne_empty _ _ (linePart_ne_empty e ?_)
        exact hlines e (by rw [hlns]; exact List.mem_cons_self _ _)

/-- Invariant of the header-chunking loop for timing: whenever the current
section has no clip entry the running start is 0, and every chunk already
produced whose section has no clip entry has start 0, timestamp "0:00" and
a deep link ending in "&t=0".  Folding any items preserves both facts. -/
theorem headers_fold_start (clip_lookup : String → Option ClipInfo)
    (episode_meta : EpisodeMeta) :
    ∀ (items : List Item) (st : HeaderState),
      (clip_lookup st.current_header = none → st.current_start = 0) →
      (∀ c ∈ st.chunks, clip_lookup c.section_name = none →
         c.start_seconds = 0 ∧ c.timestamp = "0:00"
         ∧ c.deep_link = "https://www.youtube.com/watch?v="
             ++ episode_meta.youtube ++ "&t=0") →
      ((clip_lookup (items.foldl (headerStep clip_lookup episode_meta)
          st).current_header = none →
        (items.foldl (headerStep clip_lookup episode_meta) st).current_start = 0)
      ∧ (∀ c ∈ (items.foldl (headerStep clip_lookup episode_meta) st).chunks,
          clip_lookup c.section_name = none →
          c.start_seconds = 0 ∧ c.timestamp = "0:00"
          ∧ c.deep_link = "https://www.youtube.com/watch?v="
              ++ episode_meta.youtube ++ "&t=0")) := by
  intro items
  induction items with
  | nil => intro st hstart hchunks; exact ⟨hstart, hchunks⟩
  | cons it rest ih =>
    intro st hstart hchunks
    rw [List.foldl_cons]
    refine ih (headerStep clip_lookup episode_meta st it) ?_ ?_
    · cases it with
      | line e0 => intro h; rw [headerStep] at h ⊢; exact hstart h
      | header name =>
        intro h
        rw [headerStep] at h ⊢
        simp only at h ⊢
        rw [h]
        rfl
    · cases it with
      | line e0 => intro c hc; rw [headerStep] at hc; exact hchunks c hc
      | header name =>
        intro c hc
        rw [headerStep] at hc
        revert hc
        cases hf : flush_chunk clip_lookup episode_meta
            st.current_header st.current_lines st.current_start with
        | none => intro hc; exact hchunks c hc
        | some c' =>
          intro hc hnone
          rcases List.mem_append.1 hc with hc | hc
          · exact hchunks c hc hnone
          · rcases List.mem_singleton.1 hc with rfl
            obtain ⟨_, hsec, _⟩ := flush_chunk_eq _ _ _ _ _ _ hf
            rw [hsec] at hnone
            obtain ⟨h1, h2, h3⟩ := flush_chunk_fallback _ _ _ _ _ _ hf hnone
            have hz : st.current_start = 0 := hstart hnone
            rw [hz] at h1 h2 h3
            refine ⟨h1, by rw [h2]; rfl, ?_⟩
            rw [h3, String.append_assoc]
            rfl

/-- C2 (amended): for every document and every flushed section whose label
has no entry in the clip lookup map, the Header Chunker sets the excerpt's
start-seconds to 0 — the value recorded when the section marker was seen
(`clip_lookup.get(header, \x7b\x7d).get("start_seconds", 0)`), NOT the timestamp
of the first accumulated spoken line — and builds the deep link by
appending that 0 offset to the document's base video URL. -/
theorem chunk_by_headers_missing_clip (transcript : List Item)
    (clip_lookup : String → Option ClipInfo) (episode_meta : EpisodeMeta)
    (c : Chunk) (hc : c ∈ chunk_by_headers transcript clip_lookup episode_meta)
    (hnone : clip_lookup c.section_name = none) :
    c.start_seconds = 0 ∧ c.timestamp = "0:00"
    ∧ c.deep_link = "https://www.youtube.com/watch?v="
        ++ episode_meta.youtube ++ "&t=0" := by
  rw [chunk_by_headers] at hc
  obtain ⟨hstart, hchunks⟩ := headers_fold_start clip_lookup episode_meta transcript
    { current_header := "Introduction", current_lines := [], current_start := 0,
      chunks := [] } (fun _ => rfl) (by simp)
  revert hc
  cases hf : flush_chunk clip_lookup episode_meta
      (transcript.foldl (headerStep clip_lookup episode_meta)
        { current_header := "Introduction", current_lines := [],
          current_start := 0, chunks := [] }).current_header
      (transcript.foldl (headerStep clip_lookup episode_meta)
        { current_header := "Introduction", current_lines := [],
          current_start := 0, chunks := [] }).current_lines
      (transcript.foldl (headerStep clip_lookup episode_meta)
        { current_header := "Introduction", current_lines := [],
          current_start := 0, chunks := [] }).current_start with
  | none => intro hc; exact hchunks c hc hnone
  | some c' =>
    intro hc
    rcases List.mem_append.1 hc with hc | hc
    · exact hchunks c hc hnone
    · rcases List.mem_singleton.1 hc with rfl
      obtain ⟨_, hsec, _⟩ := flush_chunk_eq _ _ _ _ _ _ hf
      rw [hsec] at hnone
      obtain ⟨h1, h2, h3⟩ := flush_chunk_fallback _ _ _ _ _ _ hf hnone
      have hz := hstart hnone
      rw [hz] at h1 h2 h3
      refine ⟨h1, by rw [h2]; rfl, ?_⟩
      rw [h3, String.append_assoc]
      rfl

/-- Concrete transcript: one section marker followed by one spoken line at
second 50. -/
def tr2 : List Item :=
  [ Item.header "H"
  , Item.line { who := "A", line := "hi", sec := 50 } ]

/-- The single excerpt `chunk_by_headers` emits for `tr2` with an empty
clip lookup and `meta0`. -/
def chunk2 : Chunk :=
  { chunk_type := "header", section_name := "H", text := "A: hi", speakers := "A"
  , episode_title := "Ep", short_title := "E", video_id := "vid123"
  , season := "8", episode_num := "4", start_seconds := 0, timestamp := "0:00"
  , deep_link := "https://www.youtube.com/watch?v=vid123&t=0" }

/-- C2 (counterexample): with an empty clip lookup and a section "H" whose
first (and only) accumulated line has timestamp 50, the emitted excerpt's
start-seconds is 0, not 50 — the fallback does not use the first
accumulated line's timestamp. -/
theorem chunk_by_headers_fallback_counterexample :
    ((chunk_by_headers tr2 (fun _ => none) meta0).map (·.start_seconds)) = [0]
    ∧ ((0 : Int) ≠ 50) := by
  refine ⟨by decide, by decide⟩

/-- C2 (witness): the amended fallback property instantiated on the
concrete document `tr2` with an empty clip lookup. -/
theorem chunk_by_headers_missing_clip_witness :
    chunk2 ∈ chunk_by_headers tr2 (fun _ => none) meta0
    ∧ (fun _ => (none : Option ClipInfo)) chunk2.section_name = none
    ∧ (chunk2.start_seconds = 0 ∧ chunk2.timestamp = "0:00"
       ∧ chunk2.deep_link = "https://www.youtube.com/watch?v="
           ++ meta0.youtube ++ "&t=0") :=
  ⟨by decide, rfl,
   chunk_by_headers_missing_clip tr2 (fun _ => none) meta0 chunk2 (by decide) rfl⟩

/-- C8 (counterexample): a document whose only spoken line has no speaker
and whitespace-only text makes the Header Chunker emit an excerpt whose
text is the empty string, refuting the unconditional claim. -/
theorem chunk_by_headers_empty_text_counterexample :
    ((chunk_by_headers [Item.line { who := "", line := " ", sec := 5 }]
        (fun _ => none) meta0).map (·.text)) = [""]
    ∧ ¬ (∀ c ∈ chunk_by_headers [Item.line { who := "", line := " ", sec := 5 }]
           (fun _ => none) meta0, c.text ≠ "") := by
  refine ⟨by decide, by decide⟩

/-- C8 (witness): the amended non-empty-text property instantiated on the
concrete document `tr2`, whose single spoken line has a truthy speaker. -/
theorem chunk_by_headers_text_ne_empty_witness :
    (∀ it ∈ tr2, line_has_content it = true)
    ∧ (∀ c ∈ chunk_by_headers tr2 (fun _ => none) meta0, c.text ≠ "") :=
  ⟨by decide,
   chunk_by_headers_text_ne_empty tr2 (fun _ => none) meta0 (by decide)⟩

/-- C4 (witness): the no-transcript clause of the loader theorem
instantiated at a concrete document with an empty transcript. -/
theorem load_all_episodes_isolates_failures_witness :
    (DocData.mk [] [] meta0).transcript = []
    ∧ parse_md_file (DocSource.parsed (DocData.mk [] [] meta0)) = .ok [] :=
  ⟨rfl, (load_all_episodes_isolates_failures []).2.2 (DocData.mk [] [] meta0) rfl⟩
